import Mathlib

/-!
Shallow embedding of the assessment lifecycle engine of the lms-backend
repository (controllers/assessmentController.js, together with the data
model described by the specification).  JavaScript numbers are idealised
as rationals (ℚ); timestamps are milliseconds since the epoch (Int), as
produced by JavaScript Date arithmetic; Mongo object ids are Nat.
-/

namespace LMS

/-- Assessment `type` enum: assignment, project, essay, coding. -/
inductive AssessmentType
  | assignment | project | essay | coding
deriving DecidableEq, Repr

/-- The `submissionType` enum: file, text, url, github. -/
inductive SubmissionKind
  | file | text | url | github
deriving DecidableEq, Repr

/-- Submission `status` enum: submitted, graded. -/
inductive SubmissionStatus
  | submitted | graded
deriving DecidableEq, Repr

/-- The content object of a submit request body, with the five
recognised fields of the Joi schema in `submitAssessment`; every field
is optional there. -/
structure SubmitContent where
  text : Option String
  fileUrl : Option String
  fileName : Option String
  githubUrl : Option String
  websiteUrl : Option String
deriving DecidableEq, Repr

/-- The `grade` block written by `gradeSubmission`. -/
structure Grade where
  points : ℚ
  feedback : Option String
  gradedAt : Int
  gradedBy : Nat
deriving DecidableEq, Repr

/-- One embedded submission document. -/
structure Submission where
  id : Nat
  student : Nat
  content : SubmitContent
  isLate : Bool
  submittedAt : Int
  status : SubmissionStatus
  grade : Option Grade
deriving DecidableEq, Repr

/-- An assessment record.  The optional attachment settings
(allowedFileTypes, maxFileSize, rubric) are omitted: no operation
reads them. -/
structure Assessment where
  id : Nat
  title : String
  description : String
  instructions : String
  course : Nat
  instructor : Nat
  type : AssessmentType
  maxPoints : ℚ
  dueDate : Int
  allowLateSubmission : Bool
  latePenalty : ℚ
  submissionType : SubmissionKind
  isPublished : Bool
  submissions : List Submission
deriving DecidableEq, Repr

/-- The authenticated principal resolved from a request
(`req.user`). -/
structure Principal where
  id : Nat
  isInstructor : Bool
  isAdmin : Bool
deriving DecidableEq, Repr

/-- Error outcomes of the controller, named after the taxonomy of the
specification; each corresponds to one `res.status(...)` + `throw` site
of the source. -/
inductive ApiError
  | validationError (field : String)
  | notFound (what : String)
  | forbidden (msg : String)
  | notPublished
  | duplicateSubmission
  | submissionClosed
deriving DecidableEq, Repr

/-- Milliseconds in one day: the `1000 * 60 * 60 * 24` divisor of
`gradeSubmission`. -/
def msPerDay : Int := 1000 * 60 * 60 * 24

/-- The computation
`Math.ceil((submission.submittedAt - assessment.dueDate) / (1000*60*60*24))`. -/
def daysLate (submittedAt dueDate : Int) : Int :=
  Int.ceil (((submittedAt - dueDate : Int) : ℚ) / (msPerDay : ℚ))

/-- The late-penalty arithmetic of `gradeSubmission` lines 302-307:
if the submission is late and the assessment has a positive
`latePenalty`, the entered points are scaled by `1 - penalty` and
clamped below at 0; otherwise they are stored unchanged. -/
def computeFinalPoints (a : Assessment) (sub : Submission) (points : ℚ) : ℚ :=
  if sub.isLate ∧ 0 < a.latePenalty then
    let d : Int := daysLate sub.submittedAt a.dueDate
    let penalty : ℚ := (a.latePenalty / 100) * (d : ℚ)
    max 0 (points * (1 - penalty))
  else points

/-- Replace the first submission with the given id (the in-place
mutation of the document returned by `submissions.id(...)`). -/
def replaceFirstById : List Submission → Nat → Submission → List Submission
  | [], _, _ => []
  | s :: rest, sid, s' =>
      if s.id == sid then s' :: rest else s :: replaceFirstById rest sid s'

/-- The controller function `gradeSubmission` (lines 269-320), for an assessment
already found by id.  Order of checks as in the source: Joi validation
of the body (`points` required, min 0), then ownership/admin, then the
submission lookup, then the penalty arithmetic and the write. -/
def gradeSubmission (u : Principal) (a : Assessment) (sid : Nat)
    (points : ℚ) (feedback : Option String) (now : Int) :
    Except ApiError (Assessment × Submission) :=
  if points < 0 then .error (.validationError "points")
  else if a.instructor ≠ u.id ∧ u.isAdmin = false then
    .error (.forbidden "Not authorized to grade this assessment")
  else
    match a.submissions.find? (fun s => s.id == sid) with
    | none => .error (.notFound "Submission not found")
    | some sub =>
      let finalPoints := computeFinalPoints a sub points
      let sub' : Submission :=
        { sub with
          grade := some { points := finalPoints, feedback := feedback,
                          gradedAt := now, gradedBy := u.id },
          status := .graded }
      .ok ({ a with submissions := replaceFirstById a.submissions sid sub' }, sub')

/-- Joi `string()`: a present value must be a non-empty string. -/
def strOk (o : Option String) : Bool :=
  match o with
  | none => true
  | some s => s ≠ ""

/-- Joi `string().uri()`: a present value must be a non-empty string
that is a well-formed URI; URI well-formedness is kept abstract as a
predicate parameter. -/
def uriOk (isUri : String → Bool) (o : Option String) : Bool :=
  match o with
  | none => true
  | some s => s ≠ "" && isUri s

/-- Joi validation of the `content` object of a submit body: every
field is optional, plain strings must be non-empty, `githubUrl` and
`websiteUrl` must additionally be URIs.  Returns the first violated
field, or none when the object validates — in particular an empty
object validates. -/
def contentError (isUri : String → Bool) (c : SubmitContent) : Option String :=
  if ¬ strOk c.text then some "content.text"
  else if ¬ strOk c.fileUrl then some "content.fileUrl"
  else if ¬ strOk c.fileName then some "content.fileName"
  else if ¬ uriOk isUri c.githubUrl then some "content.githubUrl"
  else if ¬ uriOk isUri c.websiteUrl then some "content.websiteUrl"
  else none

/-- The controller function `submitAssessment` (lines 203-262), for an assessment
already found by id.  `body` is the request `content` field (absent
when the body has no `content`); `now` is the wall clock at the call;
`newId` is the id the store assigns to the embedded document.  Order of
checks as in the source: Joi validation, publication, duplicate,
lateness. -/
def submitAssessment (isUri : String → Bool) (u : Principal)
    (a : Assessment) (body : Option SubmitContent) (now : Int)
    (newId : Nat) : Except ApiError (Assessment × Submission) :=
  match body with
  | none => .error (.validationError "content")
  | some content =>
    match contentError isUri content with
    | some f => .error (.validationError f)
    | none =>
      if a.isPublished = false then .error .notPublished
      else if (a.submissions.find? (fun s => s.student == u.id)).isSome then
        .error .duplicateSubmission
      else
        let isLate : Bool := a.dueDate < now
        if isLate = true ∧ a.allowLateSubmission = false then
          .error .submissionClosed
        else
          let sub : Submission :=
            { id := newId, student := u.id, content := content,
              isLate := isLate, submittedAt := now,
              status := .submitted, grade := none }
          .ok ({ a with submissions := a.submissions ++ [sub] }, sub)

/-- The assessment stored after a submit call: on success the saved
aggregate, on any error the original (the source throws before
`assessment.save()`). -/
def afterSubmit (a : Assessment)
    (r : Except ApiError (Assessment × Submission)) : Assessment :=
  match r with
  | .ok (a', _) => a'
  | .error _ => a

/-- The controller function `getAssessmentById` (lines 59-87), for an assessment
already found by id: the requester is the owning instructor when their
id equals `assessment.instructor`; non-owner non-admins are rejected on
unpublished assessments and otherwise see only their own
submissions. -/
def getAssessmentById (u : Principal) (a : Assessment) :
    Except ApiError Assessment :=
  let isInstructor : Bool := a.instructor == u.id
  if isInstructor = false ∧ u.isAdmin = false ∧ a.isPublished = false then
    .error (.forbidden "Assessment not published")
  else if isInstructor = false ∧ u.isAdmin = false then
    .ok { a with submissions := a.submissions.filter (fun s => s.student == u.id) }
  else .ok a

/-- A partial update body for `updateAssessment`; a present field
overwrites the stored one. -/
structure UpdateBody where
  title : Option String
  description : Option String
  instructions : Option String
  course : Option Nat
  instructor : Option Nat
  type : Option AssessmentType
  maxPoints : Option ℚ
  dueDate : Option Int
  allowLateSubmission : Option Bool
  latePenalty : Option ℚ
  submissionType : Option SubmissionKind
  isPublished : Option Bool
deriving DecidableEq, Repr

/-- Modelled from the spec: the assessment schema (assessmentModel.js,
not among the provided sources) declares `course` and `instructor`
immutable after creation, so `findByIdAndUpdate(id, req.body)` drops
those two paths from the update and overwrites every other present
field. -/
def applyUpdate (a : Assessment) (b : UpdateBody) : Assessment :=
  { a with
    title := b.title.getD a.title,
    description := b.description.getD a.description,
    instructions := b.instructions.getD a.instructions,
    type := b.type.getD a.type,
    maxPoints := b.maxPoints.getD a.maxPoints,
    dueDate := b.dueDate.getD a.dueDate,
    allowLateSubmission := b.allowLateSubmission.getD a.allowLateSubmission,
    latePenalty := b.latePenalty.getD a.latePenalty,
    submissionType := b.submissionType.getD a.submissionType,
    isPublished := b.isPublished.getD a.isPublished }

/-- The controller function `updateAssessment` (lines 151-172), for an assessment
already found by id: ownership/admin check, then the update. -/
def updateAssessment (u : Principal) (a : Assessment) (b : UpdateBody) :
    Except ApiError Assessment :=
  if a.instructor ≠ u.id ∧ u.isAdmin = false then
    .error (.forbidden "Not authorized to update this assessment")
  else .ok (applyUpdate a b)

/-- At most one submission per distinct student id. -/
def atMostOnePerStudent (a : Assessment) : Prop :=
  a.submissions.Pairwise (fun s t => s.student ≠ t.student)

/-! ## Concrete records used by witnesses and counterexamples -/

/-- The owning instructor of the sample assessment. -/
def grader1 : Principal := ⟨1, true, false⟩

/-- An instructor who does not own the sample assessment and is not an
admin. -/
def outsider : Principal := ⟨2, true, false⟩

/-- The student who owns the sample submission. -/
def student5 : Principal := ⟨5, false, false⟩

/-- Another student, with no submission yet. -/
def student6 : Principal := ⟨6, false, false⟩

/-- A content object with only a text field. -/
def textContent : SubmitContent :=
  { text := some "my essay", fileUrl := none, fileName := none,
    githubUrl := none, websiteUrl := none }

/-- The empty content object: every recognised field absent. -/
def emptyContent : SubmitContent :=
  { text := none, fileUrl := none, fileName := none,
    githubUrl := none, websiteUrl := none }

/-- A submission by student 5, two days past a due date of 0. -/
def subLate : Submission :=
  { id := 1, student := 5, content := textContent, isLate := true,
    submittedAt := 172800000, status := .submitted, grade := none }

/-- Sample assessment: owned by instructor 1, due at epoch 0, 20%
late penalty per day, published, one late submission. -/
def baseAssessment : Assessment :=
  { id := 10, title := "Essay 1", description := "an essay",
    instructions := "write", course := 3, instructor := 1,
    type := .essay, maxPoints := 100, dueDate := 0,
    allowLateSubmission := true, latePenalty := 20,
    submissionType := .text, isPublished := true,
    submissions := [subLate] }

/-- Sample assessment with no submissions and a future due date. -/
def freshAssessment : Assessment :=
  { baseAssessment with id := 11, dueDate := 864000000, submissions := [] }

/-! ## Helper lemmas -/

/-- Compute `daysLate` from integer bounds on the millisecond gap. -/
lemma daysLate_eq_of (s d k : Int)
    (h1 : ((k : ℚ) - 1) * (msPerDay : ℚ) < ((s - d : Int) : ℚ))
    (h2 : ((s - d : Int) : ℚ) ≤ (k : ℚ) * (msPerDay : ℚ)) :
    daysLate s d = k := by
  have hD : (0 : ℚ) < (msPerDay : ℚ) := by norm_num [msPerDay]
  rw [daysLate, Int.ceil_eq_iff]
  exact ⟨(lt_div_iff₀ hD).mpr h1, (div_le_iff₀ hD).mpr h2⟩

/-- A submission strictly past the due date is charged at least one
day. -/
lemma one_le_daysLate (s d : Int) (h : d < s) : 1 ≤ daysLate s d := by
  have hc : ((d : ℚ)) < ((s : ℚ)) := by exact_mod_cast h
  have h0 : (0 : ℚ) < ((s - d : Int) : ℚ) / (msPerDay : ℚ) := by
    apply div_pos
    · push_cast
      linarith
    · norm_num [msPerDay]
  have hp := Int.ceil_pos.mpr h0
  rw [daysLate]
  omega

/-- One second past the due date rounds up to one day. -/
lemma daysLate_one_second (d : Int) : daysLate (d + 1000) d = 1 := by
  apply daysLate_eq_of
  · push_cast
    norm_num [msPerDay]
  · push_cast
    norm_num [msPerDay]

/-- Exactly two days past the due date is two late days. -/
lemma daysLate_two_days : daysLate 172800000 0 = 2 := by
  apply daysLate_eq_of
  · push_cast
    norm_num [msPerDay]
  · push_cast
    norm_num [msPerDay]

/-- A submission with its grade block overwritten and its status set to
graded, as written by `gradeSubmission` lines 309-315. -/
def gradedCopy (sub : Submission) (g : Grade) : Submission :=
  { sub with grade := some g, status := .graded }

/-- Shape of a successful grade call: validation, authorization and the
lookup pass, and the found submission is regraded in place. -/
lemma gradeSubmission_ok (u : Principal) (a : Assessment) (sid : Nat)
    (p : ℚ) (fb : Option String) (now : Int) (sub : Submission)
    (hp : 0 ≤ p) (hauth : a.instructor = u.id ∨ u.isAdmin = true)
    (hfind : a.submissions.find? (fun s => s.id == sid) = some sub) :
    gradeSubmission u a sid p fb now =
      .ok ({ a with
             submissions :=
               replaceFirstById a.submissions sid
                 (gradedCopy sub ⟨computeFinalPoints a sub p, fb, now, u.id⟩) },
           gradedCopy sub ⟨computeFinalPoints a sub p, fb, now, u.id⟩) := by
  have hcond : ¬(a.instructor ≠ u.id ∧ u.isAdmin = false) := by
    rintro ⟨h1, h2⟩
    rcases hauth with h | h
    · exact h1 h
    · rw [h] at h2
      cases h2
  unfold gradeSubmission
  rw [if_neg (not_lt.mpr hp), if_neg hcond, hfind]
  rfl

/-- Stored points are never negative. -/
lemma computeFinalPoints_nonneg (a : Assessment) (sub : Submission) (p : ℚ)
    (hp : 0 ≤ p) : 0 ≤ computeFinalPoints a sub p := by
  unfold computeFinalPoints
  split
  · exact le_max_left 0 _
  · exact hp

/-- With a lateness flag consistent with the timestamps and a
non-negative penalty rate, the stored points never exceed the entered
points. -/
lemma computeFinalPoints_le (a : Assessment) (sub : Submission) (p : ℚ)
    (hp : 0 ≤ p) (hlp : 0 ≤ a.latePenalty)
    (hcons : sub.isLate = true → a.dueDate < sub.submittedAt) :
    computeFinalPoints a sub p ≤ p := by
  unfold computeFinalPoints
  split
  case isTrue h =>
    obtain ⟨hl, hpos⟩ := h
    have hd : 1 ≤ daysLate sub.submittedAt a.dueDate :=
      one_le_daysLate _ _ (hcons hl)
    have hdq : (1 : ℚ) ≤ (daysLate sub.submittedAt a.dueDate : ℚ) := by
      exact_mod_cast hd
    have hpen : 0 ≤ (a.latePenalty / 100) * (daysLate sub.submittedAt a.dueDate : ℚ) :=
      mul_nonneg (div_nonneg hlp (by norm_num)) (by linarith)
    apply max_le hp
    nlinarith [mul_nonneg hp hpen]
  case isFalse h => exact le_refl p

/-- On-time submissions and zero penalty rates store the entered points
unchanged. -/
lemma computeFinalPoints_eq_of (a : Assessment) (sub : Submission) (p : ℚ)
    (h : sub.isLate = false ∨ a.latePenalty = 0) :
    computeFinalPoints a sub p = p := by
  unfold computeFinalPoints
  rw [if_neg]
  rintro ⟨h1, h2⟩
  rcases h with h | h
  · rw [h] at h1
    cases h1
  · rw [h] at h2
    exact lt_irrefl 0 h2

/-- A late submission under a positive penalty rate, graded with
strictly positive entered points, stores strictly fewer points. -/
lemma computeFinalPoints_lt (a : Assessment) (sub : Submission) (p : ℚ)
    (hp : 0 < p) (hl : sub.isLate = true) (hpos : 0 < a.latePenalty)
    (hcons : a.dueDate < sub.submittedAt) :
    computeFinalPoints a sub p < p := by
  unfold computeFinalPoints
  rw [if_pos ⟨hl, hpos⟩]
  have hd : 1 ≤ daysLate sub.submittedAt a.dueDate :=
    one_le_daysLate _ _ hcons
  have hdq : (1 : ℚ) ≤ (daysLate sub.submittedAt a.dueDate : ℚ) := by
    exact_mod_cast hd
  have hpen : 0 < (a.latePenalty / 100) * (daysLate sub.submittedAt a.dueDate : ℚ) :=
    mul_pos (by positivity) (by linarith)
  apply max_lt hp
  nlinarith

/-- The penalty branch stores the literal clamped product. -/
lemma computeFinalPoints_late (a : Assessment) (sub : Submission) (p : ℚ)
    (hl : sub.isLate = true) (hpos : 0 < a.latePenalty) :
    computeFinalPoints a sub p =
      max 0 (p * (1 - (a.latePenalty / 100) * (daysLate sub.submittedAt a.dueDate : ℚ))) := by
  unfold computeFinalPoints
  rw [if_pos ⟨hl, hpos⟩]

/-! ## Claims -/

/-- Claim C1, amended: for every graded submission the stored points lie
in `[0, rawPoints]`; they equal `rawPoints` whenever the submission is
not late or `latePenalty` is 0; and conversely, when the submission is
late, `latePenalty` is positive and `rawPoints > 0`, the stored points
are strictly below `rawPoints`.  (At `rawPoints = 0` a late submission
under a positive penalty also stores exactly `rawPoints`, so the
claim's unrestricted "exactly when" fails; see the counterexample.) -/
theorem C1_grade_points_bounds (u : Principal) (a : Assessment) (sid : Nat)
    (p : ℚ) (fb : Option String) (now : Int) (sub : Submission)
    (hp : 0 ≤ p) (hlp : 0 ≤ a.latePenalty)
    (hauth : a.instructor = u.id ∨ u.isAdmin = true)
    (hfind : a.submissions.find? (fun s => s.id == sid) = some sub)
    (hcons : sub.isLate = true → a.dueDate < sub.submittedAt) :
    ∃ a', gradeSubmission u a sid p fb now =
        .ok (a', gradedCopy sub ⟨computeFinalPoints a sub p, fb, now, u.id⟩) ∧
      0 ≤ computeFinalPoints a sub p ∧
      computeFinalPoints a sub p ≤ p ∧
      ((sub.isLate = false ∨ a.latePenalty = 0) → computeFinalPoints a sub p = p) ∧
      (sub.isLate = true → 0 < a.latePenalty → 0 < p → computeFinalPoints a sub p < p) := by
  refine ⟨_, gradeSubmission_ok u a sid p fb now sub hp hauth hfind, ?_, ?_, ?_, ?_⟩
  · exact computeFinalPoints_nonneg a sub p hp
  · exact computeFinalPoints_le a sub p hp hlp hcons
  · exact computeFinalPoints_eq_of a sub p
  · exact fun hl hpos hp' => computeFinalPoints_lt a sub p hp' hl hpos (hcons hl)

/-- Concrete discharge of C1 at the sample assessment, entered points
90. -/
theorem C1_grade_points_bounds_witness :
    (0 : ℚ) ≤ 90 ∧ 0 ≤ baseAssessment.latePenalty ∧
    (∃ a', gradeSubmission grader1 baseAssessment 1 90 none 5 =
        .ok (a', gradedCopy subLate
          ⟨computeFinalPoints baseAssessment subLate 90, none, 5, grader1.id⟩) ∧
      0 ≤ computeFinalPoints baseAssessment subLate 90 ∧
      computeFinalPoints baseAssessment subLate 90 ≤ 90 ∧
      ((subLate.isLate = false ∨ baseAssessment.latePenalty = 0) →
        computeFinalPoints baseAssessment subLate 90 = 90) ∧
      (subLate.isLate = true → 0 < baseAssessment.latePenalty → (0 : ℚ) < 90 →
        computeFinalPoints baseAssessment subLate 90 < 90)) :=
  ⟨by norm_num, by norm_num [baseAssessment],
   C1_grade_points_bounds grader1 baseAssessment 1 90 none 5 subLate
     (by norm_num) (by norm_num [baseAssessment]) (Or.inl rfl) rfl (by decide)⟩

/-- Claim C1, counterexample to the claim as stated: grading the sample
late submission (2 days late, latePenalty 20, so the penalty branch
runs) with rawPoints = 0 stores exactly rawPoints, although the
submission is late and the penalty is positive — the "equals rawPoints
exactly when not late or penalty 0" biconditional fails at
rawPoints = 0. -/
theorem C1_counterexample :
    subLate.isLate = true ∧ 0 < baseAssessment.latePenalty ∧
    gradeSubmission grader1 baseAssessment 1 0 none 5 =
      .ok ({ baseAssessment with
             submissions := [gradedCopy subLate ⟨0, none, 5, 1⟩] },
           gradedCopy subLate ⟨0, none, 5, 1⟩) := by
  refine ⟨rfl, by norm_num [baseAssessment], ?_⟩
  have hcp : computeFinalPoints baseAssessment subLate 0 = 0 := by
    unfold computeFinalPoints
    rw [if_pos]
    · norm_num
    · exact ⟨rfl, by norm_num [baseAssessment]⟩
  have hok := gradeSubmission_ok grader1 baseAssessment 1 0 none 5 subLate
    le_rfl (Or.inl rfl) rfl
  rw [hcp] at hok
  rw [hok]
  rfl

/-- Claim C2: grading a late submission under a positive penalty rate
charges `daysLate = ceil((submittedAt - dueDate) / 1 day)` and stores
`max 0 (rawPoints * (1 - (latePenalty/100) * daysLate))`; a submission
one second past the due date is charged exactly 1 day; and the penalty
fraction is not capped at 1 (20% per day over 6 late days gives 1.2). -/
theorem C2_late_penalty_formula (u : Principal) (a : Assessment) (sid : Nat)
    (p : ℚ) (fb : Option String) (now : Int) (sub : Submission)
    (hp : 0 ≤ p) (hauth : a.instructor = u.id ∨ u.isAdmin = true)
    (hfind : a.submissions.find? (fun s => s.id == sid) = some sub)
    (hlate : sub.isLate = true) (hpen : 0 < a.latePenalty) :
    (∃ a', gradeSubmission u a sid p fb now =
        .ok (a', gradedCopy sub
          ⟨max 0 (p * (1 - (a.latePenalty / 100) * (daysLate sub.submittedAt a.dueDate : ℚ))),
           fb, now, u.id⟩)) ∧
    (∀ D : Int, daysLate (D + 1000) D = 1) ∧
    1 < ((20 : ℚ) / 100) * (daysLate (6 * msPerDay) 0 : ℚ) := by
  refine ⟨?_, daysLate_one_second, ?_⟩
  · have hok := gradeSubmission_ok u a sid p fb now sub hp hauth hfind
    rw [computeFinalPoints_late a sub p hlate hpen] at hok
    exact ⟨_, hok⟩
  · have h6 : daysLate (6 * msPerDay) 0 = 6 := by
      apply daysLate_eq_of
      · push_cast
        norm_num [msPerDay]
      · push_cast
        norm_num [msPerDay]
    rw [h6]
    norm_num

/-- Concrete discharge of C2: the sample submission is 2 days late, so
grading 90 points under the 20%-per-day penalty runs the clamped
formula. -/
theorem C2_late_penalty_formula_witness :
    (0 : ℚ) ≤ 90 ∧ subLate.isLate = true ∧ 0 < baseAssessment.latePenalty ∧
    (∃ a', gradeSubmission grader1 baseAssessment 1 90 none 5 =
        .ok (a', gradedCopy subLate
          ⟨max 0 (90 * (1 - (baseAssessment.latePenalty / 100) *
             (daysLate subLate.submittedAt baseAssessment.dueDate : ℚ))),
           none, 5, grader1.id⟩)) ∧
    (∀ D : Int, daysLate (D + 1000) D = 1) ∧
    1 < ((20 : ℚ) / 100) * (daysLate (6 * msPerDay) 0 : ℚ) := by
  have h := C2_late_penalty_formula grader1 baseAssessment 1 90 none 5 subLate
    (by norm_num) (Or.inl rfl) rfl rfl (by norm_num [baseAssessment])
  exact ⟨by norm_num, rfl, by norm_num [baseAssessment], h.1, h.2.1, h.2.2⟩

/-- Claim C3 (the assessment schema is not among the provided sources;
its immutable course/instructor declaration is modelled from the spec
in `applyUpdate`): an update request that passes the ownership/admin
check succeeds and leaves the assessment's course and instructor
references unchanged, whatever fields the body contains. -/
theorem C3_update_preserves_course_instructor (u : Principal)
    (a : Assessment) (b : UpdateBody)
    (hauth : a.instructor = u.id ∨ u.isAdmin = true) :
    updateAssessment u a b = .ok (applyUpdate a b) ∧
    (applyUpdate a b).course = a.course ∧
    (applyUpdate a b).instructor = a.instructor := by
  refine ⟨?_, rfl, rfl⟩
  unfold updateAssessment
  rw [if_neg]
  rintro ⟨h1, h2⟩
  rcases hauth with h | h
  · exact h1 h
  · rw [h] at h2
    cases h2

/-- An update body that tries to overwrite the course and instructor
references (and the title). -/
def hijackBody : UpdateBody :=
  { title := some "New title", description := none, instructions := none,
    course := some 99, instructor := some 99, type := none,
    maxPoints := none, dueDate := none, allowLateSubmission := none,
    latePenalty := none, submissionType := none, isPublished := none }

/-- Concrete discharge of C3: the owning instructor sends a body that
names new course and instructor ids; both stay unchanged. -/
theorem C3_update_preserves_course_instructor_witness :
    (baseAssessment.instructor = grader1.id ∨ grader1.isAdmin = true) ∧
    (updateAssessment grader1 baseAssessment hijackBody =
       .ok (applyUpdate baseAssessment hijackBody) ∧
     (applyUpdate baseAssessment hijackBody).course = baseAssessment.course ∧
     (applyUpdate baseAssessment hijackBody).instructor = baseAssessment.instructor) :=
  ⟨Or.inl rfl,
   C3_update_preserves_course_instructor grader1 baseAssessment hijackBody (Or.inl rfl)⟩

/-- Claim C4, counterexample to the claim as stated: the outsider
instructor (id 2, not admin, not the owner) grading the absent
submission id 99 of the sample assessment receives Forbidden, not the
NotFound the claim promises. -/
theorem C4_counterexample :
    outsider.isAdmin = false ∧ baseAssessment.instructor ≠ outsider.id ∧
    baseAssessment.submissions.find? (fun s => s.id == 99) = none ∧
    gradeSubmission outsider baseAssessment 99 50 none 5 =
      .error (.forbidden "Not authorized to grade this assessment") ∧
    gradeSubmission outsider baseAssessment 99 50 none 5 ≠
      .error (.notFound "Submission not found") := by
  refine ⟨rfl, by decide, rfl, ?_, ?_⟩
  · unfold gradeSubmission
    rw [if_neg (by norm_num), if_pos ⟨by decide, rfl⟩]
  · unfold gradeSubmission
    rw [if_neg (by norm_num), if_pos ⟨by decide, rfl⟩]
    simp

/-- Claim C4, amended: in `gradeSubmission` the ownership/admin check
precedes the submission lookup, so a principal who is neither admin nor
the owning instructor receives Forbidden whatever submission id the
request names — in particular an absent one — while an authorized
grader naming an absent submission id receives NotFound. -/
theorem C4_auth_before_lookup (u : Principal) (a : Assessment) (sid : Nat)
    (p : ℚ) (fb : Option String) (now : Int) (hp : 0 ≤ p) :
    (a.instructor ≠ u.id → u.isAdmin = false →
      gradeSubmission u a sid p fb now =
        .error (.forbidden "Not authorized to grade this assessment")) ∧
    ((a.instructor = u.id ∨ u.isAdmin = true) →
      a.submissions.find? (fun s => s.id == sid) = none →
      gradeSubmission u a sid p fb now =
        .error (.notFound "Submission not found")) := by
  constructor
  · intro h1 h2
    unfold gradeSubmission
    rw [if_neg (not_lt.mpr hp), if_pos ⟨h1, h2⟩]
  · intro hauth hnone
    have hcond : ¬(a.instructor ≠ u.id ∧ u.isAdmin = false) := by
      rintro ⟨h1, h2⟩
      rcases hauth with h | h
      · exact h1 h
      · rw [h] at h2
        cases h2
    unfold gradeSubmission
    rw [if_neg (not_lt.mpr hp), if_neg hcond, hnone]

/-- Concrete discharge of C4 (amended) at the outsider instructor and
the absent submission id 99. -/
theorem C4_auth_before_lookup_witness :
    (0 : ℚ) ≤ 50 ∧
    ((baseAssessment.instructor ≠ outsider.id → outsider.isAdmin = false →
      gradeSubmission outsider baseAssessment 99 50 none 5 =
        .error (.forbidden "Not authorized to grade this assessment")) ∧
     ((baseAssessment.instructor = outsider.id ∨ outsider.isAdmin = true) →
      baseAssessment.submissions.find? (fun s => s.id == 99) = none →
      gradeSubmission outsider baseAssessment 99 50 none 5 =
        .error (.notFound "Submission not found"))) :=
  ⟨by norm_num,
   C4_auth_before_lookup outsider baseAssessment 99 50 none 5 (by norm_num)⟩

/-- The submission document appended by a successful submit call. -/
def newSubmission (u : Principal) (c : SubmitContent) (now : Int)
    (newId : Nat) (a : Assessment) : Submission :=
  { id := newId, student := u.id, content := c,
    isLate := decide (a.dueDate < now), submittedAt := now,
    status := .submitted, grade := none }

/-- A submit body whose content fails Joi validation is rejected with
the first violated field. -/
lemma submitAssessment_invalid (isUri : String → Bool) (u : Principal)
    (a : Assessment) (c : SubmitContent) (now : Int) (nid : Nat)
    (f : String) (hf : contentError isUri c = some f) :
    submitAssessment isUri u a (some c) now nid =
      .error (.validationError f) := by
  simp [submitAssessment, hf]

/-- Submitting to an unpublished assessment is rejected. -/
lemma submitAssessment_notPublished (isUri : String → Bool) (u : Principal)
    (a : Assessment) (c : SubmitContent) (now : Int) (nid : Nat)
    (hvalid : contentError isUri c = none) (hpub : a.isPublished = false) :
    submitAssessment isUri u a (some c) now nid = .error .notPublished := by
  simp [submitAssessment, hvalid, hpub]

/-- A second submission by the same student is rejected. -/
lemma submitAssessment_duplicate (isUri : String → Bool) (u : Principal)
    (a : Assessment) (c : SubmitContent) (now : Int) (nid : Nat)
    (hvalid : contentError isUri c = none) (hpub : a.isPublished = true)
    (hdup : (a.submissions.find? (fun s => s.student == u.id)).isSome = true) :
    submitAssessment isUri u a (some c) now nid =
      .error .duplicateSubmission := by
  simp [submitAssessment, hvalid, hpub, hdup]

/-- A late submission is rejected when late submissions are not
allowed. -/
lemma submitAssessment_closed (isUri : String → Bool) (u : Principal)
    (a : Assessment) (c : SubmitContent) (now : Int) (nid : Nat)
    (hvalid : contentError isUri c = none) (hpub : a.isPublished = true)
    (hfresh : a.submissions.find? (fun s => s.student == u.id) = none)
    (hl : a.dueDate < now) (hna : a.allowLateSubmission = false) :
    submitAssessment isUri u a (some c) now nid =
      .error .submissionClosed := by
  simp [submitAssessment, hvalid, hpub, hfresh, hna, hl]

/-- Shape of a successful submit call: every check passes and the new
submission is appended at the end. -/
lemma submitAssessment_ok (isUri : String → Bool) (u : Principal)
    (a : Assessment) (c : SubmitContent) (now : Int) (nid : Nat)
    (hvalid : contentError isUri c = none) (hpub : a.isPublished = true)
    (hfresh : a.submissions.find? (fun s => s.student == u.id) = none)
    (hopen : a.dueDate < now → a.allowLateSubmission = true) :
    submitAssessment isUri u a (some c) now nid =
      .ok ({ a with submissions := a.submissions ++ [newSubmission u c now nid a] },
           newSubmission u c now nid a) := by
  by_cases hl : a.dueDate < now
  · simp [submitAssessment, hvalid, hpub, hfresh, hl, hopen hl, newSubmission]
  · simp [submitAssessment, hvalid, hpub, hfresh, hl, newSubmission]

/-- Claim C5: on a published assessment, a second submit call by a
student who already has a submission fails with DuplicateSubmission and
leaves the stored assessment unchanged; and any successful submit call
preserves the at-most-one-submission-per-student invariant. -/
theorem C5_duplicate_submission (isUri : String → Bool) (u : Principal)
    (a : Assessment) (c : SubmitContent) (now : Int) (nid : Nat)
    (hpub : a.isPublished = true)
    (hvalid : contentError isUri c = none)
    (hdup : ∃ s ∈ a.submissions, s.student = u.id) :
    submitAssessment isUri u a (some c) now nid = .error .duplicateSubmission ∧
    afterSubmit a (submitAssessment isUri u a (some c) now nid) = a ∧
    (∀ (u' : Principal) (c' : SubmitContent) (now' : Int) (nid' : Nat)
       (a' : Assessment) (s' : Submission),
       atMostOnePerStudent a →
       submitAssessment isUri u' a (some c') now' nid' = .ok (a', s') →
       atMostOnePerStudent a') := by
  have hsome : (a.submissions.find? (fun s => s.student == u.id)).isSome = true := by
    rw [List.find?_isSome]
    obtain ⟨s, hs, he⟩ := hdup
    exact ⟨s, hs, by simp [he]⟩
  have herr := submitAssessment_duplicate isUri u a c now nid hvalid hpub hsome
  refine ⟨herr, by rw [herr]; rfl, ?_⟩
  intro u' c' now' nid' a' s' hone hok
  by_cases hv : contentError isUri c' = none
  · by_cases hf : a.submissions.find? (fun s => s.student == u'.id) = none
    · by_cases hopen : a.dueDate < now' → a.allowLateSubmission = true
      · rw [submitAssessment_ok isUri u' a c' now' nid' hv hpub hf hopen] at hok
        simp only [Except.ok.injEq, Prod.mk.injEq] at hok
        obtain ⟨h1, -⟩ := hok
        subst h1
        unfold atMostOnePerStudent at hone ⊢
        simp only []
        rw [List.pairwise_append]
        refine ⟨hone, List.pairwise_singleton _ _, ?_⟩
        intro x hx y hy
        rw [List.mem_singleton] at hy
        subst hy
        have hne := List.find?_eq_none.mp hf x hx
        simpa [newSubmission] using hne
      · push_neg at hopen
        rw [submitAssessment_closed isUri u' a c' now' nid' hv hpub hf hopen.1
          (by simpa using hopen.2)] at hok
        cases hok
    · have hs' : (a.submissions.find? (fun s => s.student == u'.id)).isSome = true := by
        rcases Option.ne_none_iff_exists.mp hf with ⟨x, hx⟩
        rw [← hx]
        rfl
      rw [submitAssessment_duplicate isUri u' a c' now' nid' hv hpub hs'] at hok
      cases hok
  · rcases Option.ne_none_iff_exists.mp hv with ⟨f, hfx⟩
    rw [submitAssessment_invalid isUri u' a c' now' nid' f hfx.symm] at hok
    cases hok

/-- The constant URI validator used by concrete instances. -/
def uriAlways : String → Bool := fun _ => true

/-- Concrete discharge of C5: student 5 has already submitted to the
sample assessment. -/
theorem C5_duplicate_submission_witness :
    baseAssessment.isPublished = true ∧
    contentError uriAlways textContent = none ∧
    (∃ s ∈ baseAssessment.submissions, s.student = student5.id) ∧
    submitAssessment uriAlways student5 baseAssessment (some textContent) 5 7 =
      .error .duplicateSubmission ∧
    afterSubmit baseAssessment
      (submitAssessment uriAlways student5 baseAssessment (some textContent) 5 7) =
      baseAssessment :=
  have h := C5_duplicate_submission uriAlways student5 baseAssessment textContent 5 7
    rfl rfl ⟨subLate, by simp [baseAssessment], rfl⟩
  ⟨rfl, rfl, ⟨subLate, by simp [baseAssessment], rfl⟩, h.1, h.2.1⟩

/-- Claim C6: submitting a structurally valid body to an unpublished
assessment fails with NotPublished, for every wall-clock time and every
due date, and the stored assessment is unchanged. -/
theorem C6_unpublished_rejects (isUri : String → Bool) (u : Principal)
    (a : Assessment) (c : SubmitContent) (now : Int) (nid : Nat)
    (hpub : a.isPublished = false) (hvalid : contentError isUri c = none) :
    submitAssessment isUri u a (some c) now nid = .error .notPublished ∧
    afterSubmit a (submitAssessment isUri u a (some c) now nid) = a := by
  have h := submitAssessment_notPublished isUri u a c now nid hvalid hpub
  exact ⟨h, by rw [h]; rfl⟩

/-- The sample assessment before publication. -/
def draftAssessment : Assessment :=
  { baseAssessment with id := 12, isPublished := false, submissions := [] }

/-- Concrete discharge of C6 at the unpublished sample assessment, at a
time well before its due date. -/
theorem C6_unpublished_rejects_witness :
    draftAssessment.isPublished = false ∧
    contentError uriAlways textContent = none ∧
    submitAssessment uriAlways student6 draftAssessment (some textContent) (-5) 7 =
      .error .notPublished ∧
    afterSubmit draftAssessment
      (submitAssessment uriAlways student6 draftAssessment (some textContent) (-5) 7) =
      draftAssessment :=
  have h := C6_unpublished_rejects uriAlways student6 draftAssessment textContent (-5) 7
    rfl rfl
  ⟨rfl, rfl, h.1, h.2⟩

/-- Claim C7: a first-time, structurally valid submit to a published
assessment is closed after the due date when late submissions are
disallowed; is accepted with `isLate = true` and `submittedAt = now`
after the due date when they are allowed; and is accepted with
`isLate = false` on or before the due date. -/
theorem C7_late_submission_policy (isUri : String → Bool) (u : Principal)
    (a : Assessment) (c : SubmitContent) (now : Int) (nid : Nat)
    (hpub : a.isPublished = true) (hvalid : contentError isUri c = none)
    (hfresh : a.submissions.find? (fun s => s.student == u.id) = none) :
    (a.dueDate < now → a.allowLateSubmission = false →
      submitAssessment isUri u a (some c) now nid = .error .submissionClosed ∧
      afterSubmit a (submitAssessment isUri u a (some c) now nid) = a) ∧
    (a.dueDate < now → a.allowLateSubmission = true →
      submitAssessment isUri u a (some c) now nid =
        .ok ({ a with submissions := a.submissions ++ [newSubmission u c now nid a] },
             newSubmission u c now nid a) ∧
      (newSubmission u c now nid a).isLate = true ∧
      (newSubmission u c now nid a).submittedAt = now) ∧
    (now ≤ a.dueDate →
      submitAssessment isUri u a (some c) now nid =
        .ok ({ a with submissions := a.submissions ++ [newSubmission u c now nid a] },
             newSubmission u c now nid a) ∧
      (newSubmission u c now nid a).isLate = false ∧
      (newSubmission u c now nid a).submittedAt = now) := by
  refine ⟨?_, ?_, ?_⟩
  · intro hl hna
    have h := submitAssessment_closed isUri u a c now nid hvalid hpub hfresh hl hna
    exact ⟨h, by rw [h]; rfl⟩
  · intro hl hla
    refine ⟨submitAssessment_ok isUri u a c now nid hvalid hpub hfresh (fun _ => hla), ?_, rfl⟩
    simp [newSubmission, hl]
  · intro hle
    refine ⟨submitAssessment_ok isUri u a c now nid hvalid hpub hfresh
      (fun hl => absurd hl (not_lt.mpr hle)), ?_, rfl⟩
    simp [newSubmission, not_lt.mpr hle]

/-- Concrete discharge of C7 at the fresh sample assessment: student 6
has no submission there. -/
theorem C7_late_submission_policy_witness :
    freshAssessment.isPublished = true ∧
    contentError uriAlways textContent = none ∧
    freshAssessment.submissions.find? (fun s => s.student == student6.id) = none ∧
    (freshAssessment.dueDate < 5 → freshAssessment.allowLateSubmission = false →
      submitAssessment uriAlways student6 freshAssessment (some textContent) 5 7 =
        .error .submissionClosed ∧
      afterSubmit freshAssessment
        (submitAssessment uriAlways student6 freshAssessment (some textContent) 5 7) =
        freshAssessment) ∧
    (freshAssessment.dueDate < 5 → freshAssessment.allowLateSubmission = true →
      submitAssessment uriAlways student6 freshAssessment (some textContent) 5 7 =
        .ok ({ freshAssessment with
               submissions := freshAssessment.submissions ++
                 [newSubmission student6 textContent 5 7 freshAssessment] },
             newSubmission student6 textContent 5 7 freshAssessment) ∧
      (newSubmission student6 textContent 5 7 freshAssessment).isLate = true ∧
      (newSubmission student6 textContent 5 7 freshAssessment).submittedAt = 5) ∧
    ((5 : Int) ≤ freshAssessment.dueDate →
      submitAssessment uriAlways student6 freshAssessment (some textContent) 5 7 =
        .ok ({ freshAssessment with
               submissions := freshAssessment.submissions ++
                 [newSubmission student6 textContent 5 7 freshAssessment] },
             newSubmission student6 textContent 5 7 freshAssessment) ∧
      (newSubmission student6 textContent 5 7 freshAssessment).isLate = false ∧
      (newSubmission student6 textContent 5 7 freshAssessment).submittedAt = 5) :=
  have h := C7_late_submission_policy uriAlways student6 freshAssessment textContent 5 7
    rfl rfl rfl
  ⟨rfl, rfl, rfl, h.1, h.2.1, h.2.2⟩

/-- Claim C8, counterexample to the claim as stated: the outsider
(an instructor, but not the owner of the sample assessment and not an
admin) requesting the published sample assessment gets an empty
submissions collection, not all submissions. -/
theorem C8_counterexample :
    outsider.isInstructor = true ∧ baseAssessment.isPublished = true ∧
    getAssessmentById outsider baseAssessment =
      .ok { baseAssessment with submissions := [] } ∧
    baseAssessment.submissions ≠ [] := by
  exact ⟨rfl, rfl, rfl, by simp [baseAssessment]⟩

/-- Claim C8, amended: on a published assessment, the owning instructor
or an admin sees all submissions; any other requester — student or
instructor alike — sees exactly the submissions whose student id equals
their own. -/
theorem C8_view_redaction (u : Principal) (a : Assessment)
    (hpub : a.isPublished = true) :
    ((a.instructor = u.id ∨ u.isAdmin = true) → getAssessmentById u a = .ok a) ∧
    (a.instructor ≠ u.id → u.isAdmin = false →
      getAssessmentById u a =
        .ok { a with submissions := a.submissions.filter (fun s => s.student == u.id) } ∧
      (∀ s ∈ a.submissions.filter (fun s => s.student == u.id), s.student = u.id) ∧
      (∀ s ∈ a.submissions, s.student = u.id →
        s ∈ a.submissions.filter (fun s => s.student == u.id))) := by
  constructor
  · rintro (h | h)
    · simp [getAssessmentById, h]
    · simp [getAssessmentById, h]
  · intro h1 h2
    refine ⟨by simp [getAssessmentById, beq_eq_false_iff_ne.mpr h1, h2, hpub], ?_, ?_⟩
    · intro s hs
      rw [List.mem_filter] at hs
      exact eq_of_beq hs.2
    · intro s hs he
      rw [List.mem_filter]
      exact ⟨hs, by simp [he]⟩

/-- Concrete discharge of C8 (amended) at student 5, who owns the only
submission of the sample assessment. -/
theorem C8_view_redaction_witness :
    baseAssessment.isPublished = true ∧
    ((baseAssessment.instructor = student5.id ∨ student5.isAdmin = true) →
      getAssessmentById student5 baseAssessment = .ok baseAssessment) ∧
    (baseAssessment.instructor ≠ student5.id → student5.isAdmin = false →
      getAssessmentById student5 baseAssessment =
        .ok { baseAssessment with
              submissions := baseAssessment.submissions.filter
                (fun s => s.student == student5.id) } ∧
      (∀ s ∈ baseAssessment.submissions.filter (fun s => s.student == student5.id),
        s.student = student5.id) ∧
      (∀ s ∈ baseAssessment.submissions, s.student = student5.id →
        s ∈ baseAssessment.submissions.filter (fun s => s.student == student5.id))) :=
  have h := C8_view_redaction student5 baseAssessment rfl
  ⟨rfl, h.1, h.2⟩

/-- The strictest URI validator: rejects everything.  Used to show that
the empty content object passes validation whatever the URI grammar
is. -/
def uriNever : String → Bool := fun _ => false

/-- A content object whose text field is present but empty. -/
def blankTextContent : SubmitContent :=
  { text := some "", fileUrl := none, fileName := none,
    githubUrl := none, websiteUrl := none }

/-- Claim C9, counterexample to the claim as stated: a submit request
whose content is the empty object passes Joi validation (every field of
the content schema is optional) and is accepted and appended, not
rejected with ValidationError. -/
theorem C9_counterexample :
    contentError uriNever emptyContent = none ∧
    submitAssessment uriNever student6 freshAssessment (some emptyContent) 5 7 =
      .ok ({ freshAssessment with
             submissions := freshAssessment.submissions ++
               [newSubmission student6 emptyContent 5 7 freshAssessment] },
           newSubmission student6 emptyContent 5 7 freshAssessment) :=
  ⟨rfl, submitAssessment_ok uriNever student6 freshAssessment emptyContent 5 7
    rfl rfl rfl (fun _ => rfl)⟩

/-- Claim C9, amended: a submit body with no content object fails with
ValidationError and mutates nothing; a content object violating the
structural rules (non-empty text, well-formed URL for
githubUrl/websiteUrl) fails with ValidationError on its first violated
field and mutates nothing; the structural rules are exactly per-field;
but there is no at-least-one-usable-field requirement — the empty
content object passes validation. -/
theorem C9_submit_validation (isUri : String → Bool) (u : Principal)
    (a : Assessment) (now : Int) (nid : Nat) :
    (submitAssessment isUri u a none now nid = .error (.validationError "content") ∧
     afterSubmit a (submitAssessment isUri u a none now nid) = a) ∧
    (∀ (c : SubmitContent) (f : String), contentError isUri c = some f →
      submitAssessment isUri u a (some c) now nid = .error (.validationError f) ∧
      afterSubmit a (submitAssessment isUri u a (some c) now nid) = a) ∧
    (∀ c : SubmitContent, contentError isUri c = none ↔
      (strOk c.text = true ∧ strOk c.fileUrl = true ∧ strOk c.fileName = true ∧
       uriOk isUri c.githubUrl = true ∧ uriOk isUri c.websiteUrl = true)) ∧
    contentError isUri emptyContent = none := by
  refine ⟨⟨rfl, rfl⟩, ?_, ?_, rfl⟩
  · intro c f h
    have he := submitAssessment_invalid isUri u a c now nid f h
    exact ⟨he, by rw [he]; rfl⟩
  · intro c
    unfold contentError
    split_ifs with h1 h2 h3 h4 h5
    all_goals simp_all

/-- Concrete discharge of C9 (amended): a missing content object and an
empty-string text field are rejected; the empty content object is
not. -/
theorem C9_submit_validation_witness :
    submitAssessment uriNever student6 freshAssessment none 5 7 =
      .error (.validationError "content") ∧
    contentError uriNever blankTextContent = some "content.text" ∧
    submitAssessment uriNever student6 freshAssessment (some blankTextContent) 5 7 =
      .error (.validationError "content.text") ∧
    contentError uriNever emptyContent = none :=
  have h := C9_submit_validation uriNever student6 freshAssessment 5 7
  ⟨h.1.1, rfl, (h.2.1 blankTextContent "content.text" rfl).1, h.2.2.2⟩

/-- Claim C10: `gradeSubmission` accepts any entered points value ≥ 0
with no upper bound relative to the assessment's `maxPoints`; for an
on-time submission the entered points are stored unchanged, so the
stored grade can strictly exceed `maxPoints`. -/
theorem C10_no_upper_bound (u : Principal) (a : Assessment) (sid : Nat)
    (p : ℚ) (fb : Option String) (now : Int) (sub : Submission)
    (hp : 0 ≤ p) (hmax : a.maxPoints < p)
    (hauth : a.instructor = u.id ∨ u.isAdmin = true)
    (hfind : a.submissions.find? (fun s => s.id == sid) = some sub)
    (hontime : sub.isLate = false) :
    ∃ a', gradeSubmission u a sid p fb now =
        .ok (a', gradedCopy sub ⟨p, fb, now, u.id⟩) ∧
      a.maxPoints < p := by
  have hok := gradeSubmission_ok u a sid p fb now sub hp hauth hfind
  rw [computeFinalPoints_eq_of a sub p (Or.inl hontime)] at hok
  exact ⟨_, hok, hmax⟩

/-- An on-time submission by student 6. -/
def subOnTime : Submission :=
  { id := 2, student := 6, content := textContent, isLate := false,
    submittedAt := -100, status := .submitted, grade := none }

/-- The sample assessment holding only the on-time submission. -/
def assessmentOnTime : Assessment :=
  { baseAssessment with id := 13, submissions := [subOnTime] }

/-- Concrete discharge of C10: grading the on-time submission with 150
points on an assessment whose maxPoints is 100 stores 150. -/
theorem C10_no_upper_bound_witness :
    (0 : ℚ) ≤ 150 ∧ assessmentOnTime.maxPoints < 150 ∧
    subOnTime.isLate = false ∧
    (∃ a', gradeSubmission grader1 assessmentOnTime 2 150 none 5 =
        .ok (a', gradedCopy subOnTime ⟨150, none, 5, grader1.id⟩) ∧
      assessmentOnTime.maxPoints < 150) :=
  ⟨by norm_num, by norm_num [assessmentOnTime, baseAssessment], rfl,
   C10_no_upper_bound grader1 assessmentOnTime 2 150 none 5 subOnTime
     (by norm_num) (by norm_num [assessmentOnTime, baseAssessment])
     (Or.inl rfl) rfl rfl⟩

end LMS
